import Mathlib

set_option maxHeartbeats 1000000

namespace ScannerAlert

/-- Snapshot of current market data, mirroring `MarketData` in `conditions.py`.
`vwap` is `Option ℚ` because `RealtimeSymbolMonitor.get_market_data` passes
`self.last_vwap`, which is `None` until the first positive volume increment.
Histories are `(timestamp, value)` pairs in insertion order, mirroring Python
dicts keyed by timestamp (dict keys are unique, and iteration follows insertion
order). Timestamps are rational seconds. -/
structure MarketData where
  symbol : String := ""
  price : ℚ
  volume : ℚ := 0
  vwap : Option ℚ
  timestamp : ℚ
  bid : ℚ := 0
  ask : ℚ := 0
  price_history : List (ℚ × ℚ) := []
  volume_history : List (ℚ × ℚ) := []
deriving DecidableEq, Repr

/-- Trigger reasons, abstracting the formatted strings each condition stores in
`self.triggered_reason`; each constructor keeps the numeric data the Python
f-string interpolates. `empty` models the cleared reason `""`. -/
inductive Reason where
  | vwapNA : Reason
  | priceAboveVwap (price vwap : ℚ) : Reason
  | momentum (r1 r2 price high10s vol10s : ℚ) : Reason
  | spike (ratio current avg : ℚ) : Reason
  | sustained (currentX prevX : ℚ) : Reason
  | empty : Reason
deriving DecidableEq, Repr

/-- `MAX_SPREAD_PCT = 0.5` from conditions.py. -/
def MAX_SPREAD_PCT : ℚ := 1/2

/-- `VOLUME_SURGE_THRESHOLD = 5.0` from conditions.py. -/
def VOLUME_SURGE_THRESHOLD : ℚ := 5

/-- `THRESH_1 = 0.7` from conditions.py. -/
def THRESH_1 : ℚ := 7/10

/-- `THRESH_2 = 0.9` from conditions.py. -/
def THRESH_2 : ℚ := 9/10

/-- `WINDOW_SEC = 5` from conditions.py. -/
def WINDOW_SEC : ℚ := 5

/-- `PriceAboveVWAPCondition.check` (conditions.py lines 76-87). Comparing
`None <= 0` raises `TypeError` in Python, modelled as `.error ()`. A vwap
`<= 0` is treated as "not available" and passes through; otherwise the price
must be strictly above the vwap. -/
def priceAboveVWAP_check (md : MarketData) : Except Unit (Bool × Reason) :=
  match md.vwap with
  | none => .error ()
  | some v =>
    if v ≤ 0 then .ok (true, .vwapNA)
    else if v < md.price then .ok (true, .priceAboveVwap md.price v)
    else .ok (false, .empty)

/-- `passes_spread_filter` (conditions.py lines 165-174): defaults to `True`
when bid/ask/price are missing (`<= 0`), else requires
`(ask - bid) / price * 100 ≤ MAX_SPREAD_PCT`. -/
def passes_spread_filter (best_bid best_ask price : ℚ) : Bool :=
  if best_bid ≤ 0 ∨ best_ask ≤ 0 ∨ price ≤ 0 then true
  else decide ((best_ask - best_bid) / price * 100 ≤ MAX_SPREAD_PCT)

/-- Insert an element into a list sorted by a rational key, keeping existing
order among smaller-or-equal keys; helper for `sortByKey`. -/
def insertByKey {α : Type} (key : α → ℚ) (x : α) : List α → List α
  | [] => [x]
  | y :: ys => if key y ≤ key x then y :: insertByKey key x ys else x :: y :: ys

/-- Insertion sort by a rational key. Models Python `sorted(...)` on dict
items/timestamp keys; all uses in this development have pairwise-distinct keys
(dict keys are unique), where any sort agrees. -/
def sortByKey {α : Type} (key : α → ℚ) : List α → List α
  | [] => []
  | x :: xs => insertByKey key x (sortByKey key xs)

/-- The 10-second greedy grouping loop of `VolumeSpike10sCondition.check`
(conditions.py lines 195-218): open a window at the first sample, accumulate
while `ts - window_start ≤ 10`, otherwise close the window and open a new one
at that sample; the final window is appended only when its sum is `> 0`. -/
def tenSecWindowsAux (start cur : ℚ) : List (ℚ × ℚ) → List ℚ
  | [] => if 0 < cur then [cur] else []
  | (t, v) :: rest =>
    if t - start ≤ 10 then tenSecWindowsAux start (cur + v) rest
    else cur :: tenSecWindowsAux t v rest

/-- Entry point of the grouping loop: Python starts with
`current_window_start = None` and zero accumulated volume, so an empty history
produces no windows. -/
def ten_sec_windows : List (ℚ × ℚ) → List ℚ
  | [] => []
  | (t, v) :: rest => tenSecWindowsAux t v rest

/-- `VolumeSpike10sCondition.check` (conditions.py lines 188-244), with
`spike_threshold` as parameter. Python slices: `ten_sec_windows[-1]` is index
`n-1` and `ten_sec_windows[-21:-1]` is `drop (n-21) |>.take 20`. -/
def volumeSpike10s_check (spike_threshold : ℚ) (md : MarketData) : Bool × Reason :=
  if md.volume_history.length < 21 then (false, .empty)
  else
    let ws := ten_sec_windows (sortByKey Prod.fst md.volume_history)
    if ws.length < 21 then (false, .empty)
    else
      let current_10s_vol := ws.getD (ws.length - 1) 0
      let past_20_avg := ((ws.drop (ws.length - 21)).take 20).sum / 20
      if past_20_avg = 0 then (false, .empty)
      else
        let ratio := current_10s_vol / past_20_avg
        if spike_threshold ≤ ratio then (true, .spike ratio current_10s_vol past_20_avg)
        else (false, .empty)

/-- `VolumeConfirmationCondition.check` (conditions.py lines 254-266):
operates on individual history entries sorted by timestamp, **not** on
10-second windows. `sorted_vols[-1]`, `sorted_vols[-2]` and the slice
`sorted_vols[-22:-2]` become index `n-1`, `n-2` and `drop (n-22) |>.take 20`. -/
def volumeConfirmation_check (multiplier : ℚ) (md : MarketData) : Bool × Reason :=
  if md.volume_history.length < 22 then (false, .empty)
  else
    let sorted_vols := (sortByKey Prod.fst md.volume_history).map Prod.snd
    let current_vol := sorted_vols.getD (sorted_vols.length - 1) 0
    let prev_vol := sorted_vols.getD (sorted_vols.length - 2) 0
    let avg_vol := ((sorted_vols.drop (sorted_vols.length - 22)).take 20).sum / 20
    if 0 < avg_vol ∧ avg_vol * multiplier < current_vol ∧ avg_vol * multiplier < prev_vol then
      (true, .sustained (current_vol / avg_vol) (prev_vol / avg_vol))
    else (false, .empty)

/-- Maximum of a price list, Python `max(p_prev_10s) if p_prev_10s else 0`
(conditions.py line 125). -/
def listMaxD : List ℚ → ℚ
  | [] => 0
  | x :: xs => xs.foldl max x

/-- Tail of `TwoStepMomentumCondition.check` (conditions.py lines 146-163)
shared by the granular branch and the fallback branch: the trigger test
`r1 ≥ t1 and r2 ≥ t2 and price ≥ high_10s`, and on success the 10-second
volume sum over `[w1_start, now]` (no jitter buffer on this sum). -/
def twoStepFinish (t1 t2 : ℚ) (md : MarketData) (w1_start high_10s r1 r2 : ℚ) :
    Bool × Reason :=
  if t1 ≤ r1 ∧ t2 ≤ r2 ∧ high_10s ≤ md.price then
    let vol_10s :=
      ((md.volume_history.filter (fun q => w1_start ≤ q.1 ∧ q.1 ≤ md.timestamp)).map
        Prod.snd).sum
    (true, .momentum r1 r2 md.price high_10s vol_10s)
  else (false, .empty)

/-- `TwoStepMomentumCondition.check` (conditions.py lines 104-163). Windows are
`[now-2W, now-W]` and `[now-W, now]` with a ±100ms jitter buffer; divisions by
a zero price raise `ZeroDivisionError` in Python, modelled as `.error ()`. When
either window is empty the fallback compares the total return since `now-2W`
against `t1 + t2` and synthesizes `r1 = t1`, `r2 = total - t1`. -/
def twoStepMomentum_check (t1 t2 window : ℚ) (md : MarketData) :
    Except Unit (Bool × Reason) :=
  if md.price_history.length < 2 then .ok (false, .empty)
  else
    let now := md.timestamp
    let w1_start := now - window * 2
    let w1_end := now - window
    let buffer : ℚ := 1/10
    let p_w1 := (md.price_history.filter
      (fun q => w1_start - buffer ≤ q.1 ∧ q.1 ≤ w1_end + buffer)).map Prod.snd
    let p_w2 := (md.price_history.filter
      (fun q => w1_end - buffer ≤ q.1 ∧ q.1 ≤ now + buffer)).map Prod.snd
    let p_prev_10s := (md.price_history.filter
      (fun q => w1_start - buffer ≤ q.1 ∧ q.1 < now - buffer)).map Prod.snd
    let high_10s := listMaxD p_prev_10s
    if p_w1.isEmpty ∨ p_w2.isEmpty then
      let p_10s_ago := (md.price_history.filter
        (fun q => w1_start - buffer ≤ q.1 ∧ q.1 ≤ w1_start + buffer)).map Prod.snd
      match p_10s_ago with
      | [] => .ok (false, .empty)
      | p0 :: _ =>
        if p0 = 0 then .error ()
        else
          let total_return := (md.price - p0) / p0 * 100
          if t1 + t2 ≤ total_return ∧ high_10s ≤ md.price then
            .ok (twoStepFinish t1 t2 md w1_start high_10s t1 (total_return - t1))
          else .ok (false, .empty)
    else
      let h1 := p_w1.headD 0
      if h1 = 0 then .error ()
      else
        let r1 := (p_w1.getLastD 0 - h1) / h1 * 100
        let h2 := p_w2.headD 0
        if h2 = 0 then .error ()
        else
          let r2 := (md.price - h2) / h2 * 100
          .ok (twoStepFinish t1 t2 md w1_start high_10s r1 r2)

/-- The condition classes that exist in conditions.py (PriceSurgeCondition is
imported by both scanners but not defined anywhere in the repository). Each
constructor carries the constructor arguments of the Python class. -/
inductive Cond where
  | priceAboveVWAP : Cond
  | twoStepMomentum (t1 t2 window : ℚ) : Cond
  | volumeSpike10s (spike_threshold : ℚ) : Cond
  | volumeConfirmation (multiplier : ℚ) : Cond
deriving DecidableEq, Repr

/-- Dispatch `condition.check(data)` for each condition class; only
`PriceAboveVWAPCondition` (on `None` vwap) and `TwoStepMomentumCondition` (on a
zero divisor price) can raise. -/
def condCheck : Cond → MarketData → Except Unit (Bool × Reason)
  | .priceAboveVWAP, md => priceAboveVWAP_check md
  | .twoStepMomentum t1 t2 w, md => twoStepMomentum_check t1 t2 w md
  | .volumeSpike10s thr, md => .ok (volumeSpike10s_check thr md)
  | .volumeConfirmation m, md => .ok (volumeConfirmation_check m md)

/-- `isinstance(condition, PriceAboveVWAPCondition)` — the member-list skip in
`AlertConditionSet.check_all` (conditions.py line 308). -/
def isVwapGateType : Cond → Bool
  | .priceAboveVWAP => true
  | _ => false

/-- The member loop of `AlertConditionSet.check_all` (conditions.py lines
306-314): skip gate-type members, append the trigger reason of each member
that checks true, and return `False` **keeping the reasons accumulated so
far** when a member fails. -/
def runMembers (md : MarketData) : List Cond → List Reason →
    Except Unit (Bool × List Reason)
  | [], acc => .ok (true, acc)
  | c :: cs, acc =>
    if isVwapGateType c then runMembers md cs acc
    else
      match condCheck c md with
      | .error e => .error e
      | .ok (true, r) => runMembers md cs (acc ++ [r])
      | .ok (false, _) => .ok (false, acc)

/-- `AlertConditionSet.check_all` (conditions.py lines 282-321): reset reasons,
evaluate a fresh `PriceAboveVWAPCondition` gate, then the spread filter, then
the member loop; on full success insert the gate reason at the front, and
return `False` when no member contributed a reason (empty member list never
triggers). The returned list is `self.triggered_reasons` after the call. -/
def check_all (members : List Cond) (md : MarketData) :
    Except Unit (Bool × List Reason) :=
  match priceAboveVWAP_check md with
  | .error e => .error e
  | .ok (false, _) => .ok (false, [])
  | .ok (true, gate_reason) =>
    match passes_spread_filter md.bid md.ask md.price with
    | false => .ok (false, [])
    | true =>
      match runMembers md members [] with
      | .error e => .error e
      | .ok (false, acc) => .ok (false, acc)
      | .ok (true, acc) =>
        match acc with
        | [] => .ok (false, [])
        | r :: rest => .ok (true, gate_reason :: r :: rest)

/-- Bounded append modelling `collections.deque(maxlen=maxLen)`: appending to a
full deque evicts the oldest entry. -/
def appendBounded {α : Type} (maxLen : ℕ) (xs : List α) (x : α) : List α :=
  let ys := xs ++ [x]
  if maxLen < ys.length then ys.drop (ys.length - maxLen) else ys

/-- Mutable state of `RealtimeSymbolMonitor` (realtime_scanner.py lines 35-64):
cumulative VWAP accumulators, last-seen values, bounded histories
(`max_history_size` default 1000) and alert-cooldown tracking
(`alert_cooldown_seconds = 5`). `none` models Python `None`. -/
structure MonitorState where
  cumulativePV : ℚ := 0
  cumulativeVolume : ℚ := 0
  lastPrice : Option ℚ := none
  lastVolume : Option ℚ := none
  lastVwap : Option ℚ := none
  lastBarVolume : Option ℚ := none
  lastUpdate : Option ℚ := none
  priceHistory : List (ℚ × ℚ) := []
  volumeHistory : List (ℚ × ℚ) := []
  lastAlertTime : Option ℚ := none
deriving DecidableEq, Repr

/-- The freshly constructed monitor state. -/
def initState : MonitorState := {}

/-- The incremental volume computed by `RealtimeSymbolMonitor.update_market_data`
(realtime_scanner.py lines 77-80): `volume - last_volume`, or `volume` itself
on the very first update. -/
def computedIncrement (s : MonitorState) (volume : ℚ) : ℚ :=
  match s.lastVolume with
  | some lv => volume - lv
  | none => volume

/-- `RealtimeSymbolMonitor.update_market_data` (realtime_scanner.py lines
66-95). `volume` is the feed's cumulative daily volume. Only a strictly
positive increment is ingested into the VWAP accumulators; the increment
(possibly non-positive) is always appended to the volume history, and
`last_volume` is always rebased to the reported value. -/
def update_market_data (s : MonitorState) (now price volume : ℚ) : MonitorState :=
  let volume_increment := computedIncrement s volume
  let pv := if 0 < volume_increment then s.cumulativePV + price * volume_increment
            else s.cumulativePV
  let cv := if 0 < volume_increment then s.cumulativeVolume + volume_increment
            else s.cumulativeVolume
  let vw := if 0 < volume_increment then (if 0 < cv then some (pv / cv) else s.lastVwap)
            else s.lastVwap
  { s with
    cumulativePV := pv
    cumulativeVolume := cv
    lastVwap := vw
    priceHistory := appendBounded 1000 s.priceHistory (now, price)
    volumeHistory := appendBounded 1000 s.volumeHistory (now, volume_increment)
    lastPrice := some price
    lastVolume := some volume
    lastBarVolume := some volume_increment
    lastUpdate := some now }

/-- Feed a list of `(timestamp, price, cumulativeVolume)` updates through
`update_market_data` in order. -/
def runUpdates (s : MonitorState) : List (ℚ × ℚ × ℚ) → MonitorState
  | [] => s
  | (t, p, v) :: rest => runUpdates (update_market_data s t p v) rest

/-- The per-bar body of `RealtimeSymbolMonitor.load_historical_intraday`
(realtime_scanner.py lines 100-132), with a bar as `(timestamp, close,
volume)`: accumulate `close * volume` and `volume` unconditionally, append to
the histories, and track the latest bar. (Date-string parsing is out of scope
of this numeric model.) -/
def loadBar (st : MonitorState) (bar : ℚ × ℚ × ℚ) : MonitorState :=
  { st with
    cumulativePV := st.cumulativePV + bar.2.1 * bar.2.2
    cumulativeVolume := st.cumulativeVolume + bar.2.2
    priceHistory := appendBounded 1000 st.priceHistory (bar.1, bar.2.1)
    volumeHistory := appendBounded 1000 st.volumeHistory (bar.1, bar.2.2)
    lastPrice := some bar.2.1
    lastBarVolume := some bar.2.2
    lastUpdate := some bar.1 }

/-- `RealtimeSymbolMonitor.load_historical_intraday` (realtime_scanner.py lines
97-138): fold all bars, then, when cumulative volume is positive, set
`last_vwap = cumulative_pv / cumulative_volume` and seed `last_volume` with the
cumulative volume. -/
def load_historical_intraday (s : MonitorState) (bars : List (ℚ × ℚ × ℚ)) :
    MonitorState :=
  let s1 := bars.foldl loadBar s
  if 0 < s1.cumulativeVolume then
    { s1 with
      lastVwap := some (s1.cumulativePV / s1.cumulativeVolume)
      lastVolume := some s1.cumulativeVolume }
  else s1

/-- The cooldown gate of `RealtimeSymbolMonitor.check_conditions`
(realtime_scanner.py lines 219-230), given that the condition set triggered
(`trig`): emit iff `last_alert_time is None` or
`(now - last_alert_time).total_seconds() > cooldown` (strict), advancing
`last_alert_time` on emission. Returns (emitted, new last_alert_time). -/
def checkConditionsStep (cooldown : ℚ) (lastAlert : Option ℚ) (now : ℚ)
    (trig : Bool) : Bool × Option ℚ :=
  if trig then
    match lastAlert with
    | none => (true, some now)
    | some t => if cooldown < now - t then (true, some now) else (false, some t)
  else (false, lastAlert)

/-- One OHLCV candle of `BacktestSymbolData` (backtest_scanner.py lines 79-99);
`openP` stands for the `open` field (a Lean keyword), `vwap` is the
vendor-supplied per-bar average (`bar['average']` from TWS). Intraday ticks are
absent in the TWS loading path and omitted here. -/
structure Candle where
  ts : ℚ
  openP : ℚ
  high : ℚ
  low : ℚ
  close : ℚ
  volume : ℚ
  vwap : ℚ
deriving DecidableEq, Repr

/-- The `MarketData` built for one candle inside
`BacktestAlertScanner.run_backtest` (backtest_scanner.py lines 357-377):
price/volume histories over **all** sorted candles filtered to timestamps
`≤` the current candle's, price = candle close, and vwap = the candle's
vendor-supplied per-bar vwap. bid/ask stay at the dataclass defaults 0. -/
def backtestSnapshot (symbol : String) (sortedCandles : List Candle)
    (c : Candle) : MarketData :=
  { symbol := symbol
    price := c.close
    volume := c.volume
    vwap := some c.vwap
    timestamp := c.ts
    bid := 0
    ask := 0
    price_history :=
      (sortedCandles.map (fun d => (d.ts, d.close))).filter (fun q => q.1 ≤ c.ts)
    volume_history :=
      (sortedCandles.map (fun d => (d.ts, d.volume))).filter (fun q => q.1 ≤ c.ts) }

/-- An alert recorded during the backtest (`BacktestAlert`, backtest_scanner.py
lines 42-61); `reasons` holds the condition-set reasons of the triggering
evaluation (the Python code stores the formatted output of
`_extract_condition_reasons`, whose numeric content is the same). -/
structure BAlert where
  ts : ℚ
  price : ℚ
  volume : ℚ
  vwap : ℚ
  reasons : List Reason
deriving DecidableEq, Repr

/-- The per-candle loop of `BacktestAlertScanner.run_backtest`
(backtest_scanner.py lines 357-392): for each candle in chronological order,
build the snapshot and append an alert whenever `check_all` returns `True` —
there is **no cooldown check** in this loop. -/
def runBacktestLoop (members : List Cond) (symbol : String)
    (sortedCandles : List Candle) : List Candle → List BAlert →
    Except Unit (List BAlert)
  | [], acc => .ok acc
  | c :: rest, acc =>
    match check_all members (backtestSnapshot symbol sortedCandles c) with
    | .error e => .error e
    | .ok (b, rs) =>
      runBacktestLoop members symbol sortedCandles rest
        (if b then acc ++ [⟨c.ts, c.close, c.volume, c.vwap, rs⟩] else acc)

/-- `BacktestAlertScanner.run_backtest` for one symbol (backtest_scanner.py
lines 336-392): sort the candles by timestamp, build the full histories, then
replay every candle through `check_all`. -/
def run_backtest (members : List Cond) (symbol : String)
    (candles : List Candle) : Except Unit (List BAlert) :=
  let sortedCandles := sortByKey Candle.ts candles
  runBacktestLoop members symbol sortedCandles sortedCandles []

/-- Outcome of one simulated bracket trade. -/
inductive Outcome where
  | WIN : Outcome
  | LOSS : Outcome
  | OPEN : Outcome
deriving DecidableEq, Repr

/-- Modelled from the spec: the take-profit/stop-loss scan of
`BacktestAlertScanner.calculate_pl`, which run_final_backtest.py calls
(together with `initial_asset` / `current_assets`) but which is absent from
the shipped backtest_scanner.py. Spec §4.7: walk the candles after the alert
in order; the first candle whose `high ≥ tpPrice` is a WIN at `tpPrice`
(take-profit checked before stop-loss within a candle); otherwise the first
candle whose `low ≤ slPrice` is a LOSS at `slPrice`; if the data ends with
neither, the trade stays OPEN at the entry price. -/
def scanBracket (tpPrice slPrice entry : ℚ) : List Candle → Outcome × ℚ
  | [] => (.OPEN, entry)
  | c :: rest =>
    if tpPrice ≤ c.high then (.WIN, tpPrice)
    else if c.low ≤ slPrice then (.LOSS, slPrice)
    else scanBracket tpPrice slPrice entry rest

/-- Modelled from the spec: scoring of one alert by the P&L simulator
(spec §4.7): `tpPrice = entry*(1+tp/100)`, `slPrice = entry*(1-sl/100)`, and
only candles **strictly after** the alert timestamp are scanned, in
chronological order. -/
def scoreAlert (tp sl entry alertTs : ℚ) (candles : List Candle) : Outcome × ℚ :=
  scanBracket (entry * (1 + tp / 100)) (entry * (1 - sl / 100)) entry
    (candles.filter (fun c => decide (alertTs < c.ts)))

/-- The increment a reported cumulative volume represents against a last-seen
baseline: `volume - lastSeen`, or `volume` itself when no baseline exists. -/
def baselineIncrement (b : Option ℚ) (volume : ℚ) : ℚ :=
  match b with
  | some lv => volume - lv
  | none => volume

/-- Per-update `(price, increment)` pairs reconstructed from a sequence of
`(timestamp, price, reportedCumulativeVolume)` updates, starting from a given
last-seen baseline — the increments `update_market_data` computes. -/
def incrementsFrom (b : Option ℚ) : List (ℚ × ℚ × ℚ) → List (ℚ × ℚ)
  | [] => []
  | (_, p, v) :: rest => (p, baselineIncrement b v) :: incrementsFrom (some v) rest

/-- `Σ price·increment` over `(price, increment)` pairs. -/
def sumPV (l : List (ℚ × ℚ)) : ℚ := (l.map (fun q => q.1 * q.2)).sum

/-- `Σ increment` over `(price, increment)` pairs. -/
def sumVol (l : List (ℚ × ℚ)) : ℚ := (l.map Prod.snd).sum

/-- Formalization of the C2 claim/spec wording (§4.6): the cumulative VWAP
recomputed from `(close, volume)` of a candle sequence, undefined while total
volume is not positive. -/
def cumulativeVWAPFromCandles (cs : List Candle) : Option ℚ :=
  let v := (cs.map Candle.volume).sum
  if 0 < v then some (((cs.map (fun c => c.close * c.volume)).sum) / v) else none

/-- Formalization of the C9 claim wording: sustained confirmation computed over
the fixed-duration 10-second contiguous bucket partition of the volume history
(the partition `ten_sec_windows` produces) — both the current bucket and the
immediately preceding bucket must exceed `multiplier × mean of the 20 buckets
before those two`. -/
def sustainedBucketedClaim (multiplier : ℚ) (history : List (ℚ × ℚ)) : Bool :=
  let ws := ten_sec_windows (sortByKey Prod.fst history)
  if ws.length < 22 then false
  else
    let cur := ws.getD (ws.length - 1) 0
    let prev := ws.getD (ws.length - 2) 0
    let avg := ((ws.drop (ws.length - 22)).take 20).sum / 20
    decide (avg * multiplier < cur) && decide (avg * multiplier < prev)

/-- A condition triggers on a snapshot: its check returns `True` (without
raising). -/
def condTriggers (c : Cond) (md : MarketData) : Prop :=
  ∃ r, condCheck c md = .ok (true, r)

/-- The reason a condition's check reports (its `triggered_reason` right after
the check), `empty` when the check raises. -/
def condReason (c : Cond) (md : MarketData) : Reason :=
  match condCheck c md with
  | .ok (_, r) => r
  | .error _ => .empty

/-- The mandatory price-above-VWAP gate passes on a snapshot. -/
def gatePasses (md : MarketData) : Prop :=
  ∃ r, priceAboveVWAP_check md = .ok (true, r)

/-- The reason the gate condition reports, `empty` when it raises. -/
def gateReason (md : MarketData) : Reason :=
  match priceAboveVWAP_check md with
  | .ok (_, r) => r
  | .error _ => .empty

/-- The member conditions `check_all` actually evaluates: everything except
gate-type (`PriceAboveVWAPCondition`) members, which the loop skips. -/
def nonGateMembers (ms : List Cond) : List Cond :=
  ms.filter (fun c => !isVwapGateType c)

/-- Volume history with one entry every `step` seconds starting at time 0. -/
def mkHist (step : ℚ) (vols : List ℚ) : List (ℚ × ℚ) :=
  (List.range vols.length).map (fun i => ((Nat.cast i : ℚ) * step, vols.getD i 0))

/-- Twenty quiet entries followed by two elevated ones — the sustained-volume
pattern used by several concrete evaluations below. -/
def vols22 : List ℚ := List.replicate 20 1 ++ [3, 3]

/-- Concrete snapshot on which `VolumeConfirmationCondition` triggers and the
gates pass (vwap 0 is "not available" and passes through): 22 one-second
volume samples `1,…,1,3,3`. -/
def mdC : MarketData :=
  { price := 10
    volume := 3
    vwap := some 0
    timestamp := 21
    price_history := mkHist 1 (List.replicate 22 10)
    volume_history := mkHist 1 vols22 }

/-- Concrete snapshot with `vwap = None`, as `get_market_data` produces before
any positive volume increment (realtime_scanner.py lines 140-158). -/
def mdNoneVwap : MarketData :=
  { price := 10
    volume := 0
    vwap := none
    timestamp := 0
    price_history := [(0, 10)]
    volume_history := [(0, 0)] }

/-- Concrete snapshot whose volume history is too short for any windowed
condition (one sample), with an available vwap below the price. -/
def mdShort : MarketData :=
  { price := 10
    volume := 5
    vwap := some 9
    timestamp := 0
    price_history := [(0, 10)]
    volume_history := [(0, 5)] }

/-- Candle volumes for the backtest run: twenty quiet 10-second bars, then
three elevated ones, so that the sustained-volume member triggers on two
consecutive candles (timestamps 210 and 220). -/
def vols23 : List ℚ := List.replicate 20 1 ++ [3, 3, 3]

/-- The 23-candle sequence (10-second bars, vendor vwap 0 so the gate passes)
driving the backtest evaluations. -/
def candles23 : List Candle :=
  (List.range 23).map (fun i =>
    { ts := (Nat.cast i : ℚ) * 10
      openP := 10
      high := 10
      low := 10
      close := 10
      volume := vols23.getD i 0
      vwap := 0 })

/-- A single candle whose vendor per-bar vwap (1) differs from the cumulative
VWAP recomputed from its close and volume (10). -/
def candleVendor : Candle :=
  { ts := 0, openP := 10, high := 10, low := 10, close := 10, volume := 5, vwap := 1 }

/-- The spec's P&L acceptance example (§8): entry 100, tp 2% → 102, sl 1% → 99;
first candle touches neither bracket, second touches the take-profit. -/
def pnlExampleCandles : List Candle :=
  [{ ts := 1, openP := 100, high := 101, low := 199/2, close := 100, volume := 1, vwap := 0 },
   { ts := 2, openP := 100, high := 103, low := 100, close := 102, volume := 1, vwap := 0 }]

/-- Claim C1: the backtest replay applies no cooldown gate at all —
`run_backtest` appends an alert on every candle on which the condition set
triggers. On 23 ten-second candles whose sustained-volume member triggers at
t=210s and t=220s, both alerts are recorded although only 10 seconds (< 60s
cooldown) separate them. -/
theorem C1_backtest_has_no_cooldown :
    (run_backtest [Cond.volumeConfirmation 2] "YCBD" candles23).map
      (fun as => as.map BAlert.ts) = .ok [210, 220] ∧ (220 - 210 : ℚ) < 60 :=
  ⟨by with_unfolding_all rfl, by norm_num⟩

/-- Claim C6: evaluating the condition set on a snapshot whose vwap is absent
(`None`) raises (`TypeError` from `data.vwap <= 0`), contradicting the
never-raises requirement; a snapshot with an available vwap but insufficient
history degrades to not-triggered as the claim says. -/
theorem C6_none_vwap_raises :
    check_all [Cond.volumeSpike10s 5] mdNoneVwap = .error () ∧
    check_all [Cond.volumeSpike10s 5] mdShort = .ok (false, []) :=
  ⟨by with_unfolding_all rfl, by with_unfolding_all rfl⟩

/-- Counterexample to claim C8: with the live default cooldown of 5 seconds,
two triggering evaluations at t = 0 and t = 0 + 5 (Δ = cooldown) emit only one
alert, because the code requires `now - last_alert_time > cooldown` strictly;
the claim says the boundary case emits the second alert. -/
theorem C8_boundary_suppressed_cex :
    checkConditionsStep 5 none 0 true = (true, some 0) ∧
    (checkConditionsStep 5 (some 0) 5 true).1 = false :=
  ⟨rfl, by with_unfolding_all rfl⟩

/-- Claim C8 (amended): after a first alert at time t, a second triggering
evaluation at t + Δ emits iff Δ > cooldown strictly; in particular
Δ = cooldown suppresses the second alert. -/
theorem C8_cooldown_strict (cooldown t d : ℚ) :
    (checkConditionsStep cooldown none t true).1 = true ∧
    ((checkConditionsStep cooldown (checkConditionsStep cooldown none t true).2
        (t + d) true).1 = true ↔ cooldown < d) := by
  constructor
  · rfl
  · have ht : t + d - t = d := by ring
    simp only [checkConditionsStep, if_true, ht]
    by_cases h : cooldown < d <;> simp [h]

/-- Counterexample to claim C4: with members `[VolumeConfirmation,
VolumeSpike10s]` on a snapshot where the first member triggers and the second
fails, `check_all` returns `False` while the first member's reason is still
recorded — partial leakage. -/
theorem C4_partial_reason_leak_cex :
    check_all [Cond.volumeConfirmation 2, Cond.volumeSpike10s 5] mdC =
      .ok (false, [Reason.sustained 3 3]) ∧
    ([Reason.sustained 3 3] : List Reason) ≠ [] :=
  ⟨by with_unfolding_all rfl, by simp⟩

/-- Counterexample to claim C7: a set of two triggering members still triggers
after removing one of them (AND-semantics makes members necessary only for
triggering, not removal-sensitive), and a member list consisting solely of the
gate-type condition never triggers even though the gate passes and that member
would trigger. -/
theorem C7_member_removal_cex :
    check_all [Cond.volumeConfirmation 2, Cond.volumeConfirmation 2] mdC =
      .ok (true, [Reason.vwapNA, Reason.sustained 3 3, Reason.sustained 3 3]) ∧
    check_all [Cond.volumeConfirmation 2] mdC =
      .ok (true, [Reason.vwapNA, Reason.sustained 3 3]) ∧
    check_all [Cond.priceAboveVWAP] mdC = .ok (false, []) :=
  ⟨by with_unfolding_all rfl, by with_unfolding_all rfl, by with_unfolding_all rfl⟩

/-- Counterexample to claim C9: on a volume history of 22 one-second samples
`1,…,1,3,3`, the code's sustained-volume condition triggers (it compares raw
history entries), while the claimed 10-second-bucket semantics cannot even
produce the 20 + 2 required buckets (the partition has 2 buckets) and reports
not-triggered. -/
theorem C9_entries_not_buckets_cex :
    (volumeConfirmation_check 2 mdC).1 = true ∧
    sustainedBucketedClaim 2 mdC.volume_history = false :=
  ⟨by with_unfolding_all rfl, by with_unfolding_all rfl⟩

/-- Counterexample to claim C2: the snapshot the backtest evaluates carries the
candle's vendor per-bar vwap (1), not the cumulative VWAP recomputed from
(close, volume) (10). -/
theorem C2_vendor_vwap_cex :
    (backtestSnapshot "X" [candleVendor] candleVendor).vwap = some 1 ∧
    cumulativeVWAPFromCandles [candleVendor] = some 10 ∧ (1 : ℚ) ≠ 10 :=
  ⟨by with_unfolding_all rfl, by with_unfolding_all rfl, by norm_num⟩

/-- Counterexample to claim C5: after a first update with cumulative volume
100, an update reporting cumulative volume 40 (a decrease) leaves the VWAP
state untouched — cumulative volume stays 100 (not 100 + 40 = 140 as the
claimed fresh-baseline ingestion would give) — while `last_volume` is rebased
to 40. -/
theorem C5_volume_decrease_cex :
    (update_market_data (update_market_data initState 0 10 100) 1 11 40).cumulativeVolume
        = 100 ∧ (100 : ℚ) ≠ 140 ∧
    (update_market_data (update_market_data initState 0 10 100) 1 11 40).lastVwap
        = some 10 ∧
    (update_market_data (update_market_data initState 0 10 100) 1 11 40).lastVolume
        = some 40 :=
  ⟨by with_unfolding_all rfl, by norm_num, by with_unfolding_all rfl,
    by with_unfolding_all rfl⟩

/-- Claim C5 (amended): when the feed's reported cumulative volume decreases,
the computed increment `new - old` is negative and is **not** ingested: the
VWAP accumulators and the published vwap are unchanged; the monitor rebases
`last_volume` to the new reported value (so subsequent increments are relative
to it) and appends the negative increment to the volume history. -/
theorem C5_volume_decrease_rebases (s : MonitorState) (now price volume lv : ℚ)
    (hlv : s.lastVolume = some lv) (hdec : volume < lv) :
    (update_market_data s now price volume).cumulativePV = s.cumulativePV ∧
    (update_market_data s now price volume).cumulativeVolume = s.cumulativeVolume ∧
    (update_market_data s now price volume).lastVwap = s.lastVwap ∧
    (update_market_data s now price volume).lastVolume = some volume ∧
    (update_market_data s now price volume).volumeHistory =
      appendBounded 1000 s.volumeHistory (now, volume - lv) := by
  have hinc : computedIncrement s volume = volume - lv := by
    simp [computedIncrement, hlv]
  have hneg : ¬ (0 < computedIncrement s volume) := by rw [hinc]; linarith
  have hlt : ¬ lv < volume := by linarith
  simp [update_market_data, hinc, hneg, hlt]

/-- Witness for the amended claim C5 at the concrete decreasing update
100 → 40. -/
theorem C5_volume_decrease_rebases_witness :
    (update_market_data (update_market_data initState 0 10 100) 1 11 40).cumulativePV
        = (update_market_data initState 0 10 100).cumulativePV ∧
    (update_market_data (update_market_data initState 0 10 100) 1 11 40).cumulativeVolume
        = (update_market_data initState 0 10 100).cumulativeVolume ∧
    (update_market_data (update_market_data initState 0 10 100) 1 11 40).lastVwap
        = (update_market_data initState 0 10 100).lastVwap ∧
    (update_market_data (update_market_data initState 0 10 100) 1 11 40).lastVolume
        = some 40 ∧
    (update_market_data (update_market_data initState 0 10 100) 1 11 40).volumeHistory
        = appendBounded 1000 (update_market_data initState 0 10 100).volumeHistory
            (1, 40 - 100) :=
  C5_volume_decrease_rebases (update_market_data initState 0 10 100) 1 11 40 100
    (by with_unfolding_all rfl) (by norm_num)

lemma condReason_eq {c : Cond} {md : MarketData} {b : Bool} {r : Reason}
    (h : condCheck c md = .ok (b, r)) : condReason c md = r := by
  simp [condReason, h]

lemma gateReason_eq {md : MarketData} {b : Bool} {r : Reason}
    (h : priceAboveVWAP_check md = .ok (b, r)) : gateReason md = r := by
  simp [gateReason, h]

lemma nonGateMembers_nil : nonGateMembers [] = [] := rfl

lemma nonGateMembers_cons_gate {c : Cond} (cs : List Cond)
    (h : isVwapGateType c = true) : nonGateMembers (c :: cs) = nonGateMembers cs := by
  simp [nonGateMembers, List.filter_cons, h]

lemma nonGateMembers_cons_member {c : Cond} (cs : List Cond)
    (h : isVwapGateType c = false) :
    nonGateMembers (c :: cs) = c :: nonGateMembers cs := by
  simp [nonGateMembers, List.filter_cons, h]

lemma runMembers_ok_true {md : MarketData} :
    ∀ (ms : List Cond) (acc res : List Reason),
      runMembers md ms acc = .ok (true, res) →
      res = acc ++ (nonGateMembers ms).map (fun c => condReason c md) ∧
      ∀ c ∈ nonGateMembers ms, condTriggers c md := by
  intro ms
  induction ms with
  | nil =>
    intro acc res h
    simp only [runMembers, Except.ok.injEq, Prod.mk.injEq, true_and] at h
    subst h
    simp [nonGateMembers_nil]
  | cons c cs ih =>
    intro acc res h
    cases hg : isVwapGateType c with
    | true =>
      rw [runMembers, if_pos hg] at h
      rw [nonGateMembers_cons_gate cs hg]
      exact ih acc res h
    | false =>
      rw [runMembers, if_neg (by simp [hg])] at h
      rw [nonGateMembers_cons_member cs hg]
      cases hc : condCheck c md with
      | error e => rw [hc] at h; simp at h
      | ok p =>
        obtain ⟨b, r⟩ := p
        rw [hc] at h
        cases b with
        | true =>
          simp only at h
          obtain ⟨h1, h2⟩ := ih (acc ++ [r]) res h
          constructor
          · rw [h1, List.map_cons, condReason_eq hc, List.append_assoc]
            simp
          · intro c' hm
            rcases List.mem_cons.mp hm with rfl | hm2
            · exact ⟨r, hc⟩
            · exact h2 c' hm2
        | false => simp at h


lemma runMembers_ok_of {md : MarketData} :
    ∀ (ms : List Cond) (acc : List Reason),
      (∀ c ∈ nonGateMembers ms, condTriggers c md) →
      runMembers md ms acc =
        .ok (true, acc ++ (nonGateMembers ms).map (fun c => condReason c md)) := by
  intro ms
  induction ms with
  | nil => intro acc _; simp [runMembers, nonGateMembers_nil]
  | cons c cs ih =>
    intro acc hall
    cases hg : isVwapGateType c with
    | true =>
      rw [runMembers, if_pos hg]
      rw [nonGateMembers_cons_gate cs hg] at hall ⊢
      exact ih acc hall
    | false =>
      rw [runMembers, if_neg (by simp [hg])]
      rw [nonGateMembers_cons_member cs hg] at hall ⊢
      obtain ⟨r, hc⟩ := hall c (List.mem_cons_self c _)
      rw [hc]
      simp only
      rw [ih (acc ++ [r]) (fun c' hm => hall c' (List.mem_cons_of_mem c hm))]
      rw [List.map_cons, condReason_eq hc, List.append_assoc]
      simp

lemma runMembers_ok_false {md : MarketData} :
    ∀ (ms : List Cond) (acc res : List Reason),
      runMembers md ms acc = .ok (false, res) →
      ∃ pre cf post, nonGateMembers ms = pre ++ cf :: post ∧
        (∀ c ∈ pre, condTriggers c md) ∧
        (∃ r, condCheck cf md = .ok (false, r)) ∧
        res = acc ++ pre.map (fun c => condReason c md) := by
  intro ms
  induction ms with
  | nil => intro acc res h; simp [runMembers] at h
  | cons c cs ih =>
    intro acc res h
    cases hg : isVwapGateType c with
    | true =>
      rw [runMembers, if_pos hg] at h
      rw [nonGateMembers_cons_gate cs hg]
      exact ih acc res h
    | false =>
      rw [runMembers, if_neg (by simp [hg])] at h
      rw [nonGateMembers_cons_member cs hg]
      cases hc : condCheck c md with
      | error e => rw [hc] at h; simp at h
      | ok p =>
        obtain ⟨b, r⟩ := p
        rw [hc] at h
        cases b with
        | true =>
          simp only at h
          obtain ⟨pre, cf, post, he, htr, hfail, hres⟩ := ih (acc ++ [r]) res h
          refine ⟨c :: pre, cf, post, by rw [he, List.cons_append], ?_, hfail, ?_⟩
          · intro c' hm
            rcases List.mem_cons.mp hm with rfl | hm2
            · exact ⟨r, hc⟩
            · exact htr c' hm2
          · rw [hres, List.map_cons, condReason_eq hc, List.append_assoc]
            simp
        | false =>
          simp only [Except.ok.injEq, Prod.mk.injEq, true_and] at h
          refine ⟨[], c, nonGateMembers cs, rfl, by simp, ⟨r, hc⟩, ?_⟩
          rw [← h]
          simp

lemma check_all_spec {ms : List Cond} {md : MarketData} {b : Bool}
    {rs : List Reason} (h : check_all ms md = .ok (b, rs)) :
    ∃ g gr, priceAboveVWAP_check md = .ok (g, gr) ∧
      ((g = false ∧ b = false ∧ rs = []) ∨
       (g = true ∧ passes_spread_filter md.bid md.ask md.price = false ∧
        b = false ∧ rs = []) ∨
       (g = true ∧ passes_spread_filter md.bid md.ask md.price = true ∧
        ∃ allOk acc, runMembers md ms [] = .ok (allOk, acc) ∧
          ((allOk = true ∧ acc = [] ∧ b = false ∧ rs = []) ∨
           (allOk = true ∧ acc ≠ [] ∧ b = true ∧ rs = gr :: acc) ∨
           (allOk = false ∧ b = false ∧ rs = acc)))) := by
  cases hgate : priceAboveVWAP_check md with
  | error e =>
    simp only [check_all, hgate] at h
    exact Except.noConfusion h
  | ok p =>
    obtain ⟨g, gr⟩ := p
    refine ⟨g, gr, rfl, ?_⟩
    cases g with
    | false =>
      simp only [check_all, hgate, Except.ok.injEq, Prod.mk.injEq] at h
      exact Or.inl ⟨rfl, h.1.symm, h.2.symm⟩
    | true =>
      cases hsp : passes_spread_filter md.bid md.ask md.price with
      | false =>
        simp only [check_all, hgate, hsp, Except.ok.injEq, Prod.mk.injEq] at h
        exact Or.inr (Or.inl ⟨rfl, rfl, h.1.symm, h.2.symm⟩)
      | true =>
        cases hrm : runMembers md ms [] with
        | error e =>
          simp only [check_all, hgate, hsp, hrm] at h
          exact Except.noConfusion h
        | ok q =>
          obtain ⟨allOk, acc⟩ := q
          refine Or.inr (Or.inr ⟨rfl, rfl, allOk, acc, rfl, ?_⟩)
          cases allOk with
          | true =>
            cases acc with
            | nil =>
              simp only [check_all, hgate, hsp, hrm, Except.ok.injEq,
                Prod.mk.injEq] at h
              exact Or.inl ⟨rfl, rfl, h.1.symm, h.2.symm⟩
            | cons r rest =>
              simp only [check_all, hgate, hsp, hrm, Except.ok.injEq,
                Prod.mk.injEq] at h
              exact Or.inr (Or.inl ⟨rfl, by simp, h.1.symm, h.2.symm⟩)
          | false =>
            simp only [check_all, hgate, hsp, hrm, Except.ok.injEq,
              Prod.mk.injEq] at h
            exact Or.inr (Or.inr ⟨rfl, h.1.symm, h.2.symm⟩)

lemma check_all_ok_of {ms : List Cond} {md : MarketData} {gr : Reason}
    (hg : priceAboveVWAP_check md = .ok (true, gr))
    (hsp : passes_spread_filter md.bid md.ask md.price = true)
    (hne : nonGateMembers ms ≠ [])
    (hall : ∀ c ∈ nonGateMembers ms, condTriggers c md) :
    check_all ms md =
      .ok (true, gr :: (nonGateMembers ms).map (fun c => condReason c md)) := by
  have hrm := @runMembers_ok_of md ms [] hall
  simp only [List.nil_append] at hrm
  cases hm : nonGateMembers ms with
  | nil => exact absurd hm hne
  | cons x xs =>
    rw [hm] at hrm
    simp only [check_all, hg, hsp, hrm, List.map_cons]

lemma check_all_true_parts {ms : List Cond} {md : MarketData} {rs : List Reason}
    (h : check_all ms md = .ok (true, rs)) :
    gatePasses md ∧ passes_spread_filter md.bid md.ask md.price = true ∧
    nonGateMembers ms ≠ [] ∧ ∀ c ∈ nonGateMembers ms, condTriggers c md := by
  obtain ⟨g, gr, hg, hcases⟩ := check_all_spec h
  rcases hcases with ⟨_, hbf, _⟩ | ⟨_, _, hbf, _⟩ |
    ⟨hgt, hsp, allOk, acc, hrm, hsub⟩
  · exact Bool.noConfusion hbf
  · exact Bool.noConfusion hbf
  · rcases hsub with ⟨_, _, hbf, _⟩ | ⟨hak, hacc, _, _⟩ | ⟨_, hbf, _⟩
    · exact Bool.noConfusion hbf
    · subst hgt
      subst hak
      obtain ⟨hacceq, htrig⟩ := runMembers_ok_true ms [] acc hrm
      refine ⟨⟨gr, hg⟩, hsp, ?_, htrig⟩
      intro hnil
      rw [hacceq, hnil] at hacc
      simp at hacc
    · exact Bool.noConfusion hbf

/-- Claim C4 (amended): `check_all`'s recorded reasons behave as follows. If it
returns `False` because the vwap gate or the spread filter fails (or because
no member contributed a reason), the recorded reasons are empty; but if a
member fails after earlier members triggered, the reasons of the members
evaluated **before** the failing one remain recorded (partial leakage within
the call; the list is reset only at the start of the next call). If it returns
`True`, the reasons are ordered gate-first, then the triggering members in
insertion order. -/
theorem C4_check_all_reasons (ms : List Cond) (md : MarketData) (b : Bool)
    (rs : List Reason) (h : check_all ms md = .ok (b, rs)) :
    (b = false →
      rs = [] ∨
      ∃ pre cf post, nonGateMembers ms = pre ++ cf :: post ∧
        (∀ c ∈ pre, condTriggers c md) ∧
        (∃ r, condCheck cf md = .ok (false, r)) ∧
        rs = pre.map (fun c => condReason c md)) ∧
    (b = true →
      rs = gateReason md :: (nonGateMembers ms).map (fun c => condReason c md) ∧
      ∀ c ∈ nonGateMembers ms, condTriggers c md) := by
  obtain ⟨g, gr, hg, hcases⟩ := check_all_spec h
  constructor
  · intro hb
    subst hb
    rcases hcases with ⟨_, _, hrs⟩ | ⟨_, _, _, hrs⟩ |
      ⟨hgt, hsp, allOk, acc, hrm, hsub⟩
    · exact Or.inl hrs
    · exact Or.inl hrs
    · rcases hsub with ⟨_, _, _, hrs⟩ | ⟨_, _, hbt, _⟩ | ⟨hak, _, hrs⟩
      · exact Or.inl hrs
      · exact Bool.noConfusion hbt
      · subst hak
        obtain ⟨pre, cf, post, he, htr, hfail, hres⟩ :=
          runMembers_ok_false ms [] acc hrm
        refine Or.inr ⟨pre, cf, post, he, htr, hfail, ?_⟩
        rw [hrs, hres]
        simp
  · intro hb
    subst hb
    rcases hcases with ⟨_, hbf, _⟩ | ⟨_, _, hbf, _⟩ |
      ⟨hgt, hsp, allOk, acc, hrm, hsub⟩
    · exact Bool.noConfusion hbf
    · exact Bool.noConfusion hbf
    · rcases hsub with ⟨_, _, hbf, _⟩ | ⟨hak, hacc, _, hrs⟩ | ⟨_, hbf, _⟩
      · exact Bool.noConfusion hbf
      · subst hak
        obtain ⟨hacceq, htrig⟩ := runMembers_ok_true ms [] acc hrm
        refine ⟨?_, htrig⟩
        rw [hrs, gateReason_eq hg, hacceq]
        simp
      · exact Bool.noConfusion hbf

/-- Witness for the amended claim C4 at the concrete triggering input: with
the single sustained-volume member on `mdC`, `check_all` returns `True` and
the recorded reasons are the gate's reason followed by the member reasons in
insertion order. -/
theorem C4_check_all_reasons_witness :
    ([Reason.vwapNA, Reason.sustained 3 3] : List Reason) =
      gateReason mdC ::
        (nonGateMembers [Cond.volumeConfirmation 2]).map (fun c => condReason c mdC) ∧
    ∀ c ∈ nonGateMembers [Cond.volumeConfirmation 2], condTriggers c mdC :=
  (C4_check_all_reasons [Cond.volumeConfirmation 2] mdC true
    [Reason.vwapNA, Reason.sustained 3 3] (by with_unfolding_all rfl)).2 rfl

/-- Claim C7 (amended): `check_all` returns `True` iff the vwap gate passes,
the spread filter passes, at least one member that is **not** of the gate's
type exists (gate-type members are skipped, so a member list consisting only
of gate-type conditions never triggers), and every non-gate member triggers;
consequently each member is necessary — if any single non-gate member's check
returns `False` on the input, the composite cannot return `True` — though
removing one member from a set with several triggering members leaves a set
that still triggers. -/
theorem C7_check_all_iff (ms : List Cond) (md : MarketData) :
    ((∃ rs, check_all ms md = .ok (true, rs)) ↔
      gatePasses md ∧ passes_spread_filter md.bid md.ask md.price = true ∧
      nonGateMembers ms ≠ [] ∧ ∀ c ∈ nonGateMembers ms, condTriggers c md) ∧
    (∀ c ∈ nonGateMembers ms, (∃ r, condCheck c md = .ok (false, r)) →
      ∀ rs, check_all ms md ≠ .ok (true, rs)) := by
  constructor
  · constructor
    · rintro ⟨rs, h⟩
      exact check_all_true_parts h
    · rintro ⟨⟨gr, hg⟩, hsp, hne, hall⟩
      exact ⟨_, check_all_ok_of hg hsp hne hall⟩
  · rintro c hcm ⟨r, hfail⟩ rs h
    obtain ⟨r2, htr⟩ := (check_all_true_parts h).2.2.2 c hcm
    rw [htr] at hfail
    simp at hfail

/-- Witness for the amended claim C7: the volume-spike member fails on the
short-history snapshot, so the composite cannot return `True` there. -/
theorem C7_check_all_iff_witness :
    check_all [Cond.volumeSpike10s 5] mdShort ≠ .ok (true, []) :=
  (C7_check_all_iff [Cond.volumeSpike10s 5] mdShort).2 (Cond.volumeSpike10s 5)
    (by simp [nonGateMembers, isVwapGateType])
    ⟨Reason.empty, by with_unfolding_all rfl⟩ []

lemma loadBar_fold :
    ∀ (bars : List (ℚ × ℚ × ℚ)) (s : MonitorState),
      (bars.foldl loadBar s).cumulativePV =
        s.cumulativePV + sumPV (bars.map (fun b => (b.2.1, b.2.2))) ∧
      (bars.foldl loadBar s).cumulativeVolume =
        s.cumulativeVolume + sumVol (bars.map (fun b => (b.2.1, b.2.2))) := by
  intro bars
  induction bars with
  | nil => intro s; simp [sumPV, sumVol]
  | cons b bs ih =>
    intro s
    simp only [List.foldl_cons, List.map_cons]
    obtain ⟨h1, h2⟩ := ih (loadBar s b)
    constructor
    · rw [h1]
      simp only [loadBar, sumPV, List.map_cons, List.sum_cons]
      ring
    · rw [h2]
      simp only [loadBar, sumVol, List.map_cons, List.sum_cons]
      ring

/-- Claim C2 (amended): the backtest evaluates each candle with the
vendor-supplied per-bar vwap carried on that candle (`bar['average']`), not a
recomputed cumulative VWAP; the cumulative recomputation from (close, volume)
— `Σ close·volume / Σ volume` — is what the **live** monitor's historical
loader performs. -/
theorem C2_backtest_vendor_vwap :
    (∀ (symbol : String) (sorted : List Candle) (c : Candle),
      (backtestSnapshot symbol sorted c).vwap = some c.vwap) ∧
    (∀ bars : List (ℚ × ℚ × ℚ),
      0 < sumVol (bars.map (fun b => (b.2.1, b.2.2))) →
      (load_historical_intraday initState bars).lastVwap =
        some (sumPV (bars.map (fun b => (b.2.1, b.2.2))) /
              sumVol (bars.map (fun b => (b.2.1, b.2.2))))) := by
  constructor
  · intro _ _ _
    rfl
  · intro bars hpos
    obtain ⟨h1, h2⟩ := loadBar_fold bars initState
    have h0pv : initState.cumulativePV = 0 := rfl
    have h0cv : initState.cumulativeVolume = 0 := rfl
    rw [h0pv, zero_add] at h1
    rw [h0cv, zero_add] at h2
    simp only [load_historical_intraday]
    rw [h1, h2, if_pos hpos]

/-- Witness for the amended claim C2 at two concrete historical bars
(closes 10 and 20 with volumes 5 and 15): the loader's cumulative VWAP is
(10·5 + 20·15) / 20 = 35/2. -/
theorem C2_backtest_vendor_vwap_witness :
    (load_historical_intraday initState [(0, 10, 5), (60, 20, 15)]).lastVwap =
      some (sumPV [((10 : ℚ), (5 : ℚ)), (20, 15)] /
            sumVol [((10 : ℚ), (5 : ℚ)), (20, 15)]) :=
  C2_backtest_vendor_vwap.2 [(0, 10, 5), (60, 20, 15)] (by norm_num [sumVol])

lemma scanBracket_eq_find (tpPrice slPrice entry : ℚ) :
    ∀ l : List Candle,
      scanBracket tpPrice slPrice entry l =
        match l.find? (fun c => decide (tpPrice ≤ c.high) || decide (c.low ≤ slPrice)) with
        | none => (Outcome.OPEN, entry)
        | some c =>
          if tpPrice ≤ c.high then (Outcome.WIN, tpPrice) else (Outcome.LOSS, slPrice) := by
  intro l
  induction l with
  | nil => rfl
  | cons c cs ih =>
    by_cases h1 : tpPrice ≤ c.high
    · simp [scanBracket, List.find?_cons, h1]
    · by_cases h2 : c.low ≤ slPrice
      · simp [scanBracket, List.find?_cons, h1, h2]
      · simp [scanBracket, List.find?_cons, h1, h2, ih]

/-- Claim C3 (spec-modelled, `calculate_pl` is absent from the shipped
backtest_scanner.py): the P&L scorer examines exactly the candles strictly
after the alert timestamp, in order; the first candle touching either bracket
decides the trade — WIN at `tpPrice` when `high ≥ tpPrice` (take-profit has
priority within a candle), else LOSS at `slPrice` when `low ≤ slPrice` — and
OPEN at the entry price when no candle after the alert touches either; on the
spec's acceptance example the result is WIN at 102 on the second candle. -/
theorem C3_pnl_scan (tp sl entry t : ℚ) (cs : List Candle) :
    (scoreAlert tp sl entry t cs =
      match (cs.filter (fun c => decide (t < c.ts))).find?
          (fun c => decide (entry * (1 + tp / 100) ≤ c.high) ||
                    decide (c.low ≤ entry * (1 - sl / 100))) with
      | none => (Outcome.OPEN, entry)
      | some c =>
        if entry * (1 + tp / 100) ≤ c.high then (Outcome.WIN, entry * (1 + tp / 100))
        else (Outcome.LOSS, entry * (1 - sl / 100))) ∧
    scoreAlert tp sl entry t cs =
      scoreAlert tp sl entry t (cs.filter (fun c => decide (t < c.ts))) ∧
    scoreAlert 2 1 100 0 pnlExampleCandles = (Outcome.WIN, 102) := by
  refine ⟨?_, ?_, ?_⟩
  · exact scanBracket_eq_find _ _ _ _
  · simp [scoreAlert, List.filter_filter]
  · with_unfolding_all rfl

lemma insertByKey_length {α : Type} (key : α → ℚ) (x : α) :
    ∀ l : List α, (insertByKey key x l).length = l.length + 1 := by
  intro l
  induction l with
  | nil => rfl
  | cons y ys ih =>
    by_cases h : key y ≤ key x
    · simp [insertByKey, h, ih]
    · simp [insertByKey, h]

lemma sortByKey_length {α : Type} (key : α → ℚ) :
    ∀ l : List α, (sortByKey key l).length = l.length := by
  intro l
  induction l with
  | nil => rfl
  | cons x xs ih => simp [sortByKey, insertByKey_length, ih]

lemma getD_default_irrel (l : List ℚ) (n : ℕ) (h : n < l.length) (d d2 : ℚ) :
    l.getD n d = l.getD n d2 := by
  rw [List.getD_eq_getElem?_getD, List.getD_eq_getElem?_getD,
    List.getElem?_eq_getElem h]
  rfl

lemma getLastD_eq_getD : ∀ (l : List ℚ) (d : ℚ), l.getLastD d = l.getD (l.length - 1) d := by
  intro l
  induction l with
  | nil => intro d; rfl
  | cons x xs ih =>
    intro d
    cases xs with
    | nil => rfl
    | cons y ys =>
      rw [List.getLastD_cons, ih x]
      have h1 : (x :: y :: ys).length - 1 = ys.length + 1 := by simp
      rw [h1, List.getD_cons_succ]
      have h2 : (y :: ys).length - 1 = ys.length := by simp
      rw [h2]
      exact getD_default_irrel _ _ (by simp) x d

lemma getD_dropLast_getLastD (l : List ℚ) (h : 2 ≤ l.length) :
    l.dropLast.getLastD 0 = l.getD (l.length - 2) 0 := by
  rw [getLastD_eq_getD, List.length_dropLast]
  have h1 : l.length - 1 - 1 = l.length - 2 := by omega
  rw [h1, List.dropLast_eq_take, List.getD_eq_getElem?_getD,
    List.getD_eq_getElem?_getD,
    List.getElem?_take_of_lt (show l.length - 2 < l.length - 1 by omega)]

lemma take20_eq_dropLast2 (l : List ℚ) (h : 22 ≤ l.length) :
    (l.drop (l.length - 22)).take 20 = l.dropLast.dropLast.drop (l.length - 22) := by
  have e1 : l.dropLast.dropLast = l.take (l.length - 2) := by
    rw [List.dropLast_eq_take, List.dropLast_eq_take, List.length_take,
      List.take_take]
    congr 1
    omega
  rw [e1, List.drop_take]
  congr 1
  omega

/-- Claim C9 (amended): the sustained-volume confirmation operates on raw
history entries in timestamp-sorted order, not on 10-second buckets: it
triggers exactly when the history has at least 22 entries, the mean of the 20
entry volumes immediately before the last two is positive, and the last and
second-last entry volumes each exceed `multiplier ×` that mean. -/
theorem C9_sustained_uses_entries (multiplier : ℚ) (md : MarketData) :
    (volumeConfirmation_check multiplier md).1 = true ↔
      (22 ≤ md.volume_history.length ∧
       0 < ((((sortByKey Prod.fst md.volume_history).map Prod.snd).dropLast.dropLast.drop
              (md.volume_history.length - 22)).sum / 20) ∧
       ((((sortByKey Prod.fst md.volume_history).map Prod.snd).dropLast.dropLast.drop
              (md.volume_history.length - 22)).sum / 20) * multiplier <
         ((sortByKey Prod.fst md.volume_history).map Prod.snd).getLastD 0 ∧
       ((((sortByKey Prod.fst md.volume_history).map Prod.snd).dropLast.dropLast.drop
              (md.volume_history.length - 22)).sum / 20) * multiplier <
         ((sortByKey Prod.fst md.volume_history).map Prod.snd).dropLast.getLastD 0) := by
  by_cases hshort : md.volume_history.length < 22
  · constructor
    · intro htrue
      exfalso
      simp only [volumeConfirmation_check, if_pos hshort] at htrue
      exact Bool.noConfusion htrue
    · rintro ⟨h22, _⟩
      omega
  · have h22 : 22 ≤ md.volume_history.length := by omega
    simp only [volumeConfirmation_check, if_neg hshort]
    set l := (sortByKey Prod.fst md.volume_history).map Prod.snd with hl
    have hlen : l.length = md.volume_history.length := by
      rw [hl, List.length_map, sortByKey_length]
    have h22l : 22 ≤ l.length := by omega
    have hcur : l.getD (l.length - 1) 0 = l.getLastD 0 := (getLastD_eq_getD l 0).symm
    have hprev : l.getD (l.length - 2) 0 = l.dropLast.getLastD 0 :=
      (getD_dropLast_getLastD l (by omega)).symm
    have havg : (l.drop (l.length - 22)).take 20 = l.dropLast.dropLast.drop (l.length - 22) :=
      take20_eq_dropLast2 l h22l
    rw [← hlen, hcur, hprev, havg]
    split_ifs with hc
    · constructor
      · intro _
        exact ⟨h22l, hc.1, hc.2.1, hc.2.2⟩
      · intro _
        rfl
    · constructor
      · intro hfalse
        exact hfalse.elim
      · rintro ⟨_, ha, hb2, hc2⟩
        exact absurd ⟨ha, hb2, hc2⟩ hc

lemma sumPV_cons (p j : ℚ) (l : List (ℚ × ℚ)) :
    sumPV ((p, j) :: l) = p * j + sumPV l := by
  simp [sumPV]

lemma sumVol_cons (p j : ℚ) (l : List (ℚ × ℚ)) :
    sumVol ((p, j) :: l) = j + sumVol l := by
  simp [sumVol]

lemma computedIncrement_eq (s : MonitorState) (volume : ℚ) :
    computedIncrement s volume = baselineIncrement s.lastVolume volume := by
  cases hb : s.lastVolume <;> simp [computedIncrement, baselineIncrement, hb]

lemma update_market_data_pos {s : MonitorState} (now price volume : ℚ)
    (h : 0 < computedIncrement s volume) :
    (update_market_data s now price volume).cumulativePV =
      s.cumulativePV + price * computedIncrement s volume ∧
    (update_market_data s now price volume).cumulativeVolume =
      s.cumulativeVolume + computedIncrement s volume ∧
    (update_market_data s now price volume).lastVolume = some volume ∧
    (0 < s.cumulativeVolume + computedIncrement s volume →
      (update_market_data s now price volume).lastVwap =
        some ((s.cumulativePV + price * computedIncrement s volume) /
              (s.cumulativeVolume + computedIncrement s volume))) := by
  refine ⟨by simp [update_market_data, h], by simp [update_market_data, h],
    by simp [update_market_data], ?_⟩
  intro hcv
  simp [update_market_data, h, hcv]

lemma update_market_data_nonpos {s : MonitorState} (now price volume : ℚ)
    (h : ¬ 0 < computedIncrement s volume) :
    (update_market_data s now price volume).cumulativePV = s.cumulativePV ∧
    (update_market_data s now price volume).cumulativeVolume = s.cumulativeVolume ∧
    (update_market_data s now price volume).lastVwap = s.lastVwap := by
  refine ⟨?_, ?_, ?_⟩ <;> simp [update_market_data, h]

lemma runUpdates_pos_accum :
    ∀ (us : List (ℚ × ℚ × ℚ)) (s : MonitorState),
      0 ≤ s.cumulativeVolume →
      (∀ x ∈ incrementsFrom s.lastVolume us, 0 < x.2) →
      (runUpdates s us).cumulativePV =
        s.cumulativePV + sumPV (incrementsFrom s.lastVolume us) ∧
      (runUpdates s us).cumulativeVolume =
        s.cumulativeVolume + sumVol (incrementsFrom s.lastVolume us) ∧
      (us ≠ [] →
        (runUpdates s us).lastVwap =
          some ((s.cumulativePV + sumPV (incrementsFrom s.lastVolume us)) /
                (s.cumulativeVolume + sumVol (incrementsFrom s.lastVolume us)))) := by
  intro us
  induction us with
  | nil =>
    intro s _ _
    refine ⟨?_, ?_, ?_⟩
    · simp [runUpdates, incrementsFrom, sumPV]
    · simp [runUpdates, incrementsFrom, sumVol]
    · intro hne
      exact absurd rfl hne
  | cons u rest ih =>
    obtain ⟨t, p, v⟩ := u
    intro s hcv hall
    simp only [incrementsFrom] at hall ⊢
    have hinc : computedIncrement s v = baselineIncrement s.lastVolume v :=
      computedIncrement_eq s v
    have hpos : 0 < computedIncrement s v := by
      rw [hinc]
      have := hall (p, baselineIncrement s.lastVolume v) (by simp)
      simpa using this
    obtain ⟨e1, e2, e3, e4⟩ := update_market_data_pos t p v hpos
    have hcv2 : 0 < (update_market_data s t p v).cumulativeVolume := by
      rw [e2]; linarith
    have hall2 : ∀ x ∈ incrementsFrom (update_market_data s t p v).lastVolume rest,
        0 < x.2 := by
      rw [e3]
      intro x hx
      exact hall x (by simp [hx])
    obtain ⟨f1, f2, f3⟩ := ih (update_market_data s t p v) (le_of_lt hcv2) hall2
    rw [e3] at f1 f2 f3
    simp only [runUpdates]
    refine ⟨?_, ?_, ?_⟩
    · rw [f1, e1, hinc, sumPV_cons]
      ring
    · rw [f2, e2, hinc, sumVol_cons]
      ring
    · intro _
      rcases eq_or_ne rest [] with hrest | hne
      · subst hrest
        have hv := e4 (by linarith)
        simp only [runUpdates]
        rw [hv, hinc]
        simp [incrementsFrom, sumPV_cons, sumVol_cons, sumPV, sumVol]
      · rw [f3 hne, e1, e2, hinc, sumPV_cons, sumVol_cons]
        congr 1
        rw [add_assoc, add_assoc]

lemma runUpdates_zero_vol :
    ∀ (us : List (ℚ × ℚ × ℚ)) (s : MonitorState),
      0 ≤ s.cumulativeVolume →
      (s.cumulativeVolume = 0 → s.lastVwap = none) →
      0 ≤ (runUpdates s us).cumulativeVolume ∧
      ((runUpdates s us).cumulativeVolume = 0 → (runUpdates s us).lastVwap = none) := by
  intro us
  induction us with
  | nil =>
    intro s h1 h2
    exact ⟨h1, h2⟩
  | cons u rest ih =>
    obtain ⟨t, p, v⟩ := u
    intro s h1 h2
    simp only [runUpdates]
    by_cases hp : 0 < computedIncrement s v
    · obtain ⟨e1, e2, e3, e4⟩ := update_market_data_pos t p v hp
      apply ih
      · rw [e2]; linarith
      · intro hz
        exfalso
        rw [e2] at hz
        linarith
    · obtain ⟨e1, e2, e3⟩ := update_market_data_nonpos t p v hp
      apply ih
      · rw [e2]; exact h1
      · intro hz
        rw [e3]
        exact h2 (by rw [← e2]; exact hz)

/-- Claim C10: over any nonempty update sequence whose computed volume
increments are all strictly positive, the maintained VWAP equals
`Σ(price·increment) / Σ(increment)`; an update whose computed increment is
non-positive leaves the VWAP state (cumulative PV, cumulative volume,
published vwap) unchanged; and as long as cumulative volume is 0 the vwap is
the `none` sentinel, never zero. -/
theorem C10_vwap_accumulator :
    (∀ us : List (ℚ × ℚ × ℚ), us ≠ [] →
      (∀ x ∈ incrementsFrom none us, 0 < x.2) →
      (runUpdates initState us).cumulativePV = sumPV (incrementsFrom none us) ∧
      (runUpdates initState us).cumulativeVolume = sumVol (incrementsFrom none us) ∧
      (runUpdates initState us).lastVwap =
        some (sumPV (incrementsFrom none us) / sumVol (incrementsFrom none us))) ∧
    (∀ (s : MonitorState) (now price volume : ℚ),
      computedIncrement s volume ≤ 0 →
      (update_market_data s now price volume).cumulativePV = s.cumulativePV ∧
      (update_market_data s now price volume).cumulativeVolume = s.cumulativeVolume ∧
      (update_market_data s now price volume).lastVwap = s.lastVwap) ∧
    (∀ us : List (ℚ × ℚ × ℚ),
      (runUpdates initState us).cumulativeVolume = 0 →
      (runUpdates initState us).lastVwap = none) := by
  refine ⟨?_, ?_, ?_⟩
  · intro us hne hall
    have h0 : initState.lastVolume = none := rfl
    have hmain := runUpdates_pos_accum us initState (le_refl 0) (by rw [h0]; exact hall)
    rw [h0] at hmain
    obtain ⟨f1, f2, f3⟩ := hmain
    have hpv0 : initState.cumulativePV = 0 := rfl
    have hcv0 : initState.cumulativeVolume = 0 := rfl
    rw [hpv0, zero_add] at f1
    rw [hcv0, zero_add] at f2
    rw [hpv0, hcv0, zero_add, zero_add] at f3
    exact ⟨f1, f2, f3 hne⟩
  · intro s now price volume h
    exact update_market_data_nonpos now price volume (not_lt.mpr h)
  · intro us h
    exact (runUpdates_zero_vol us initState (le_refl 0) (fun _ => rfl)).2 h

/-- Witness for claim C10 at a concrete two-update feed: cumulative volumes
5 then 15 at prices 10 then 20 yield increments 5 and 10, hence VWAP
(10·5 + 20·10) / 15 = 50/3. -/
theorem C10_vwap_accumulator_witness :
    (runUpdates initState [((0 : ℚ), (10 : ℚ), (5 : ℚ)), (1, 20, 15)]).lastVwap =
      some (sumPV (incrementsFrom none [((0 : ℚ), (10 : ℚ), (5 : ℚ)), (1, 20, 15)]) /
            sumVol (incrementsFrom none [((0 : ℚ), (10 : ℚ), (5 : ℚ)), (1, 20, 15)])) :=
  (C10_vwap_accumulator.1 [(0, 10, 5), (1, 20, 15)] (by simp)
    (by norm_num [incrementsFrom, baselineIncrement])).2.2

end ScannerAlert
